import Mathlib

/-!
Verification of the LifeOS Protocol core (uriResolver.js, index.js, eventTypes.js).

Strings are modelled as lists of characters; JavaScript values that the
validator inspects are modelled by a small universe of primitive values and
flat arrays; thrown JavaScript errors become an inductive error type whose
constructors correspond one-to-one to the throw sites of the source, grouped
by the error kinds the specification names (FormatError, MissingFieldError,
RangeError, ResolverNotFoundError, ResolutionError).
-/

deriving instance DecidableEq for Except

namespace LifeOS

/-- Strings are lists of characters. -/
abbrev Str := List Char

/-- JavaScript String.prototype.split with a one-character separator. -/
def splitOnChar (sep : Char) : Str → List Str
  | [] => [[]]
  | c :: rest =>
    if c = sep then [] :: splitOnChar sep rest
    else
      match splitOnChar sep rest with
      | [] => [[c]]
      | r :: rs => (c :: r) :: rs

/-- JavaScript Array.prototype.join with separator "/". -/
def joinSlash : List Str → Str
  | [] => []
  | [s] => s
  | s :: rest => s ++ '/' :: joinSlash rest

/-- The anchored regular expression of four digits, dash, two digits, dash,
two digits used for dates in uriResolver.js. -/
def dateMatches : Str → Bool
  | [y1, y2, y3, y4, d1, m1, m2, d2, a1, a2] =>
    y1.isDigit && y2.isDigit && y3.isDigit && y4.isDigit &&
    d1 = '-' && m1.isDigit && m2.isDigit &&
    d2 = '-' && a1.isDigit && a2.isDigit
  | _ => false

/-- The timestamp regular expression of uriResolver.js: a date, a literal T
and a time, anchored at the start only, so any suffix is allowed. -/
def tsMatches : Str → Bool
  | y1 :: y2 :: y3 :: y4 :: d1 :: m1 :: m2 :: d2 :: a1 :: a2 :: t ::
      h1 :: h2 :: c1 :: n1 :: n2 :: c2 :: s1 :: s2 :: _ =>
    y1.isDigit && y2.isDigit && y3.isDigit && y4.isDigit &&
    d1 = '-' && m1.isDigit && m2.isDigit &&
    d2 = '-' && a1.isDigit && a2.isDigit &&
    t = 'T' && h1.isDigit && h2.isDigit &&
    c1 = ':' && n1.isDigit && n2.isDigit &&
    c2 = ':' && s1.isDigit && s2.isDigit
  | _ => false

/-- A lower-case ASCII letter, as matched by the character class a-z. -/
def isLowerAlpha (c : Char) : Bool := 'a' ≤ c && c ≤ 'z'

/-- The anchored event-type regular expression of uriResolver.js: one or more
lower-case letters, a dot, one or more lower-case letters. -/
def typeMatches (s : Str) : Bool :=
  match splitOnChar '.' s with
  | [a, b] => !a.isEmpty && a.all isLowerAlpha && !b.isEmpty && b.all isLowerAlpha
  | _ => false

/-- The characters that JavaScript encodeURIComponent leaves unescaped:
ASCII letters, digits, and the marks dash, underscore, dot, bang, tilde,
star, quote, parentheses. -/
def isUnreservedChar (c : Char) : Bool :=
  c.isAlpha || c.isDigit || c = '-' || c = '_' || c = '.' || c = '!' ||
  c = '~' || c = '*' || c = Char.ofNat 39 || c = '(' || c = ')'

/-- The UTF-8 bytes of a code point. -/
def utf8Bytes (n : Nat) : List Nat :=
  if n < 0x80 then [n]
  else if n < 0x800 then [0xC0 + n / 0x40, 0x80 + n % 0x40]
  else if n < 0x10000 then
    [0xE0 + n / 0x1000, 0x80 + (n / 0x40) % 0x40, 0x80 + n % 0x40]
  else
    [0xF0 + n / 0x40000, 0x80 + (n / 0x1000) % 0x40, 0x80 + (n / 0x40) % 0x40,
     0x80 + n % 0x40]

/-- Upper-case hexadecimal digit of a value below 16; code point 48 is the
digit zero and 65 the letter A. -/
def hexDigitChar (n : Nat) : Char :=
  if n < 10 then Char.ofNat (48 + n) else Char.ofNat (55 + n)

/-- A percent escape of one byte. -/
def percentEncodeByte (b : Nat) : Str :=
  ['%', hexDigitChar (b / 0x10), hexDigitChar (b % 0x10)]

/-- JavaScript encodeURIComponent: unreserved characters pass through, every
other character is written as the percent escapes of its UTF-8 bytes. -/
def encodeURIComponent (s : Str) : Str :=
  s.flatMap fun c =>
    if isUnreservedChar c then [c] else (utf8Bytes c.toNat).flatMap percentEncodeByte

/-- Value of one hexadecimal digit, in either case; the code points 48-57
are the digits, 65-70 the upper-case and 97-102 the lower-case letters up
to f. -/
def hexVal? (c : Char) : Option Nat :=
  let n := c.toNat
  if 48 ≤ n ∧ n ≤ 57 then some (n - 48)
  else if 65 ≤ n ∧ n ≤ 70 then some (n - 55)
  else if 97 ≤ n ∧ n ≤ 102 then some (n - 87)
  else none

/-- Intermediate token of decodeURIComponent: either a character copied
verbatim or one byte read from a percent escape. -/
inductive PTok where
  | chr (c : Char)
  | byt (b : Nat)
deriving DecidableEq, Repr

/-- First pass of JavaScript decodeURIComponent: each percent escape becomes
a byte, every other character is copied; a percent sign not followed by two
hexadecimal digits is a URIError, modelled as none. -/
def percentTokens : Str → Option (List PTok)
  | [] => some []
  | c :: rest =>
    if c = '%' then
      match rest with
      | h1 :: h2 :: rest2 =>
        match hexVal? h1, hexVal? h2, percentTokens rest2 with
        | some a, some b, some ts => some (.byt (0x10 * a + b) :: ts)
        | _, _, _ => none
      | _ => none
    else (percentTokens rest).map (PTok.chr c :: ·)

/-- Second pass of decodeURIComponent, as a streaming strict UTF-8 decoder.
The first argument counts the continuation bytes still expected (zero when no
sequence is pending), the second accumulates the code point decoded so far,
and the next two give the admissible range of the next continuation byte -
the lead byte fixes the range of its first continuation (A0-BF after E0,
80-9F after ED so surrogates are rejected, 90-BF after F0, 80-8F after F4,
80-BF otherwise), every later continuation lies in 80-BF, and lead bytes
C0, C1 and F5-FF are rejected outright, exactly the sequences
decodeURIComponent accepts. A byte expected but absent, out of range, or a
verbatim character arriving inside a pending sequence is a URIError,
modelled as none. -/
def asmAux : Nat → Nat → Nat → Nat → List PTok → Option Str
  | 0, _, _, _, [] => some []
  | 0, _, _, _, .chr c :: ts => (asmAux 0 0 0 0 ts).map (c :: ·)
  | 0, _, _, _, .byt b :: ts =>
    if b < 0x80 then (asmAux 0 0 0 0 ts).map (Char.ofNat b :: ·)
    else if 0xC2 ≤ b && b ≤ 0xDF then asmAux 1 (b - 0xC0) 0x80 0xBF ts
    else if b = 0xE0 then asmAux 2 (b - 0xE0) 0xA0 0xBF ts
    else if b = 0xED then asmAux 2 (b - 0xE0) 0x80 0x9F ts
    else if 0xE0 ≤ b && b ≤ 0xEF then asmAux 2 (b - 0xE0) 0x80 0xBF ts
    else if b = 0xF0 then asmAux 3 (b - 0xF0) 0x90 0xBF ts
    else if b = 0xF4 then asmAux 3 (b - 0xF0) 0x80 0x8F ts
    else if 0xF0 ≤ b && b ≤ 0xF4 then asmAux 3 (b - 0xF0) 0x80 0xBF ts
    else none
  | 1, acc, lo, hi, .byt b :: ts =>
    if lo ≤ b && b ≤ hi then
      (asmAux 0 0 0 0 ts).map (Char.ofNat (acc * 0x40 + (b - 0x80)) :: ·)
    else none
  | k + 2, acc, lo, hi, .byt b :: ts =>
    if lo ≤ b && b ≤ hi then asmAux (k + 1) (acc * 0x40 + (b - 0x80)) 0x80 0xBF ts
    else none
  | _ + 1, _, _, _, _ => none

/-- Second pass of decodeURIComponent: bytes coming from percent escapes are
assembled into code points following strict UTF-8. -/
def assembleTokens (ts : List PTok) : Option Str := asmAux 0 0 0 0 ts

/-- JavaScript decodeURIComponent; none models a thrown URIError. -/
def decodeURIComponent (s : Str) : Option Str :=
  (percentTokens s).bind assembleTokens

/-- Primitive JavaScript values that the validators inspect. Numbers are
modelled as rationals: Number.isInteger corresponds to denominator one. -/
inductive JSPrim where
  | undefined
  | null
  | bool (b : Bool)
  | num (q : Rat)
  | str (s : Str)
deriving DecidableEq, Repr

/-- A JavaScript value: a primitive or a flat array of primitives (the only
array the source inspects is linked_uris, an array of strings). -/
inductive JSVal where
  | prim (p : JSPrim)
  | arr (xs : List JSPrim)
deriving DecidableEq, Repr

/-- JavaScript truthiness of a primitive: undefined, null, false, zero and
the empty string are falsy. -/
def JSPrim.truthy : JSPrim → Bool
  | .undefined => false
  | .null => false
  | .bool b => b
  | .num q => q ≠ 0
  | .str s => !s.isEmpty

/-- JavaScript truthiness: arrays are always truthy objects. -/
def JSVal.truthy : JSVal → Bool
  | .prim p => p.truthy
  | .arr _ => true

/-- Decimal digits of a natural number. -/
def natDigits (n : Nat) : Str :=
  (Nat.toDigits 10 n)

/-- JavaScript ToString on a primitive. Integral numbers print exactly as in
JavaScript; a non-integral rational is written as numerator, slash,
denominator, while JavaScript would print a decimal expansion - both forms
contain no letter, no T, no colon and no dash after the first character, so
every regular-expression test in this file rejects both alike. -/
def JSPrim.toStr : JSPrim → Str
  | .undefined => "undefined".data
  | .null => "null".data
  | .bool true => "true".data
  | .bool false => "false".data
  | .num q =>
    if q.den = 1 then
      (if q.num < 0 then ['-'] else []) ++ natDigits q.num.natAbs
    else
      (if q.num < 0 then ['-'] else []) ++ natDigits q.num.natAbs ++
        '/' :: natDigits q.den
  | .str s => s

/-- JavaScript ToString: an array prints as its elements joined by commas. -/
def JSVal.toStr : JSVal → Str
  | .prim p => p.toStr
  | .arr [] => []
  | .arr (x :: xs) => x.toStr ++ (xs.flatMap fun y => ',' :: y.toStr)

/-- The errors thrown by uriResolver.js and index.js. Each constructor is
one throw site; the grouping into the kinds the specification names
(FormatError, MissingFieldError, RangeError, ResolverNotFoundError,
ResolutionError) is given by the classification functions below. -/
inductive VErr where
  | formatUri
  | formatSegments
  | formatDate
  | uriMalformed
  | missingField (f : String)
  | formatTimestamp (v : JSVal)
  | formatType (v : JSVal)
  | formatSource (v : JSVal)
  | formatTitle (v : JSVal)
  | formatLinkedUri (s : Str)
  | typeErrorNotAString (p : JSPrim)
  | rangeMood (v : JSVal)
  | rangeDuration (v : JSVal)
  | missingComponents
  | resolverNotFound (src : Str)
  | resolutionError (uri : Str) (cause : VErr)
deriving DecidableEq, Repr

/-- The FormatError kind of the specification. -/
def VErr.isFormatErr : VErr → Bool
  | .formatUri | .formatSegments | .formatDate | .formatTimestamp _
  | .formatType _ | .formatSource _ | .formatTitle _ | .formatLinkedUri _ => true
  | _ => false

/-- The RangeError kind of the specification. -/
def VErr.isRangeErr : VErr → Bool
  | .rangeMood _ | .rangeDuration _ => true
  | _ => false

/-- The scheme characters of a life URI. -/
def lifeScheme : Str := ['l', 'i', 'f', 'e', ':', '/', '/']

/-- Parsed URI components, as returned by LifeURIResolver.parseURI. -/
structure URIComponents where
  date : Str
  source : Str
  type : Str
  slug : Str
  full : Str
deriving DecidableEq, Repr

/-- LifeURIResolver.parseURI of uriResolver.js. The source checks the scheme
with startsWith, removes six characters (leaving a leading slash that the
empty-segment filter discards), splits on slashes, drops empty segments,
requires at least four segments, takes date, source and type positionally,
rejoins the remaining segments with slashes and percent-decodes them into the
slug, and finally checks the date pattern. -/
def parseURI (uri : Str) : Except VErr URIComponents :=
  if lifeScheme.isPrefixOf uri then
    match (splitOnChar '/' (uri.drop 6)).filter (fun p => !p.isEmpty) with
    | date :: src :: ty :: s1 :: srest =>
      match decodeURIComponent (joinSlash (s1 :: srest)) with
      | none => .error .uriMalformed
      | some slug =>
        if dateMatches date then .ok ⟨date, src, ty, slug, uri⟩
        else .error .formatDate
    | _ => .error .formatSegments
  else .error .formatUri

/-- LifeURIResolver.generateURI of uriResolver.js: reject a falsy (empty)
component, reject a date failing the pattern, percent-encode the slug, and
interpolate date, source and type verbatim. -/
def generateURI (c : URIComponents) : Except VErr Str :=
  if c.date.isEmpty || c.source.isEmpty || c.type.isEmpty || c.slug.isEmpty then
    .error .missingComponents
  else if !dateMatches c.date then .error .formatDate
  else
    .ok (lifeScheme ++ c.date ++ '/' :: c.source ++ '/' :: c.type ++
      '/' :: encodeURIComponent c.slug)

/-- A candidate LifeEvent as seen by validateLifeEvent: the fields the
validator reads; a field absent from the JavaScript object reads as
undefined. -/
structure JSEvent where
  timestamp : JSVal
  source : JSVal
  type : JSVal
  title : JSVal
  linked_uris : JSVal
  mood : JSVal
  duration : JSVal
deriving DecidableEq, Repr

/-- The required-field loop of validateLifeEvent: for each of timestamp,
source, type, title in order, a falsy value throws the missing-field
error. -/
def checkRequired (e : JSEvent) : Except VErr Unit :=
  if !e.timestamp.truthy then .error (.missingField "timestamp")
  else if !e.source.truthy then .error (.missingField "source")
  else if !e.type.truthy then .error (.missingField "type")
  else if !e.title.truthy then .error (.missingField "title")
  else .ok ()

/-- The regular-expression test on the timestamp field; the JavaScript
regular-expression test coerces its argument to a string first. -/
def timestampTest (v : JSVal) : Bool := tsMatches v.toStr

/-- The regular-expression test on the type field, after string coercion. -/
def typeTest (v : JSVal) : Bool := typeMatches v.toStr

/-- The typeof-string and non-empty test applied to source and title. -/
def isNonEmptyStr : JSVal → Bool
  | .prim (.str s) => !s.isEmpty
  | _ => false

/-- The four format checks of validateLifeEvent, in source order:
timestamp pattern, type pattern, source a non-empty string, title a
non-empty string. -/
def checkFormats (e : JSEvent) : Except VErr Unit :=
  if !timestampTest e.timestamp then .error (.formatTimestamp e.timestamp)
  else if !typeTest e.type then .error (.formatType e.type)
  else if !isNonEmptyStr e.source then .error (.formatSource e.source)
  else if !isNonEmptyStr e.title then .error (.formatTitle e.title)
  else .ok ()

/-- The loop over the elements of linked_uris: a string element must start
with the scheme, else a FormatError; calling startsWith on a non-string
element is a TypeError. -/
def checkLinkedList : List JSPrim → Except VErr Unit
  | [] => .ok ()
  | .str s :: rest =>
    if lifeScheme.isPrefixOf s then checkLinkedList rest
    else .error (.formatLinkedUri s)
  | p :: _ => .error (.typeErrorNotAString p)

/-- The linked_uris rule of validateLifeEvent. The source guards the loop
with the conjunction of truthiness and Array.isArray; arrays are always
truthy, so the loop runs exactly when the field is an array, and any other
value - present or not - skips the rule. -/
def checkLinked : JSVal → Except VErr Unit
  | .arr xs => checkLinkedList xs
  | _ => .ok ()

/-- Number.isInteger conjoined with the one-to-ten bounds of the mood
rule. -/
def moodOk : JSVal → Bool
  | .prim (.num q) => q.den = 1 && !(q < 1) && !(q > 10)
  | _ => false

/-- The mood rule: checked only when the field is not undefined. -/
def checkMood (v : JSVal) : Except VErr Unit :=
  if v = .prim .undefined then .ok ()
  else if moodOk v then .ok () else .error (.rangeMood v)

/-- Number.isInteger conjoined with non-negativity, for the duration
rule. -/
def durationOk : JSVal → Bool
  | .prim (.num q) => q.den = 1 && !(q < 0)
  | _ => false

/-- The duration rule: checked only when the field is not undefined. -/
def checkDuration (v : JSVal) : Except VErr Unit :=
  if v = .prim .undefined then .ok ()
  else if durationOk v then .ok () else .error (.rangeDuration v)

/-- LifeURIResolver.validateLifeEvent of uriResolver.js: the checks run in
source order and the first failure is thrown. -/
def validateLifeEvent (e : JSEvent) : Except VErr Unit :=
  match checkRequired e with
  | .error err => .error err
  | .ok _ =>
    match checkFormats e with
    | .error err => .error err
    | .ok _ =>
      match checkLinked e.linked_uris with
      | .error err => .error err
      | .ok _ =>
        match checkMood e.mood with
        | .error err => .error err
        | .ok _ => checkDuration e.duration

/-- A resolver callback, as registered with registerResolver: it receives
the parsed components and either returns an event or fails. -/
def ResolverFn : Type := URIComponents → Except VErr JSEvent

/-- The resolver map of a LifeURIResolver instance, as an association
list keyed by source name. -/
def Registry : Type := List (Str × ResolverFn)

/-- Map.get on the resolver map. -/
def getResolver (reg : Registry) (src : Str) : Option ResolverFn :=
  (reg.find? fun p => p.1 = src).map (·.2)

/-- LifeURIResolver.resolveURI of uriResolver.js: parse the URI (errors
propagate unwrapped), look up the resolver for the parsed source (a missing
resolver propagates unwrapped), then inside the try block invoke the
resolver and validate the returned event - any failure of those two steps is
wrapped in the resolution error carrying the original URI and the cause. -/
def resolveURI (reg : Registry) (uri : Str) : Except VErr JSEvent :=
  match parseURI uri with
  | .error err => .error err
  | .ok parsed =>
    match getResolver reg parsed.source with
    | none => .error (.resolverNotFound parsed.source)
    | some f =>
      match f parsed with
      | .error err => .error (.resolutionError uri err)
      | .ok event =>
        match validateLifeEvent event with
        | .error err => .error (.resolutionError uri err)
        | .ok _ => .ok event

/-- The EVENT_TYPES registry of eventTypes.js: category to action to
description. -/
def EVENT_TYPES : List (String × List (String × String)) :=
  [("music",
    [("play", "User started playing a track"),
     ("pause", "User paused playback"),
     ("skip", "User skipped to next track"),
     ("like", "User liked a track"),
     ("add_to_playlist", "User added track to playlist")]),
   ("calendar",
    [("meeting", "Scheduled meeting or appointment"),
     ("reminder", "Calendar reminder triggered"),
     ("birthday", "Birthday or anniversary"),
     ("travel", "Travel event (flight, hotel, etc.)"),
     ("deadline", "Project or task deadline")]),
   ("journal",
    [("entry", "Journal entry or note"),
     ("mood", "Mood tracking entry"),
     ("thought", "Quick thought or idea"),
     ("reflection", "Longer reflection or analysis"),
     ("goal", "Goal setting or tracking")]),
   ("fitness",
    [("workout", "Exercise session"),
     ("step", "Step count milestone"),
     ("sleep", "Sleep tracking"),
     ("weight", "Weight measurement"),
     ("nutrition", "Food or meal logged")]),
   ("location",
    [("arrive", "Arrived at a location"),
     ("depart", "Left a location"),
     ("visit", "Visited a place"),
     ("commute", "Travel between locations")]),
   ("photo",
    [("capture", "Photo taken"),
     ("edit", "Photo edited"),
     ("share", "Photo shared"),
     ("album", "Album created or updated")]),
   ("communication",
    [("call", "Phone or video call"),
     ("message", "Text or chat message"),
     ("email", "Email sent or received"),
     ("social", "Social media activity")]),
   ("work",
    [("task", "Task completed"),
     ("project", "Project milestone"),
     ("meeting", "Work meeting"),
     ("focus", "Focus session"),
     ("break", "Work break")]),
   ("learning",
    [("course", "Course or lesson"),
     ("reading", "Reading session"),
     ("study", "Study session"),
     ("skill", "Skill development")]),
   ("finance",
    [("purchase", "Purchase made"),
     ("expense", "Expense logged"),
     ("income", "Income received"),
     ("budget", "Budget update")])]

/-- isValidEventType of eventTypes.js: split the type on dots, look the
first segment up as a category and the second as an action; a missing dot
leaves the action undefined and the lookup falsy. -/
def isValidEventType (t : Str) : Bool :=
  match splitOnChar '.' t with
  | category :: action :: _ =>
    match EVENT_TYPES.find? fun p => p.1.data = category with
    | some (_, actions) => (actions.find? fun a => a.1.data = action).isSome
    | none => false
  | _ => false

/-- The event fields read by validateLifeOSEvent of index.js. -/
structure IdxEvent where
  title : JSVal
  type : JSVal
  source : JSVal
  timestamp : JSVal
  uri : JSVal
  mood : JSVal
deriving DecidableEq, Repr

/-- The accumulated error messages of validateLifeOSEvent, as structured
values in source order. -/
inductive IdxErr where
  | titleRequired
  | typeRequired
  | sourceRequired
  | timestampRequired
  | uriRequired
  | invalidEventType (t : JSVal)
  | invalidURIFormat (cause : VErr)
  | moodOutOfRange
deriving DecidableEq, Repr

/-- The result object of validateLifeOSEvent. -/
structure ValidationResult where
  isValid : Bool
  errors : List IdxErr
deriving DecidableEq, Repr

/-- parseURI as called by index.js inside its try block: calling startsWith
on a non-string argument is a TypeError, which the catch also turns into an
errors entry. -/
def parseURIVal : JSVal → Except VErr URIComponents
  | .prim (.str s) => parseURI s
  | .prim p => .error (.typeErrorNotAString p)
  | .arr _ => .error (.typeErrorNotAString .null)

/-- The number coercion used by the mood comparison of index.js, modelled
for numbers and booleans; a truthy string or array would coerce through
ToNumber, which is not modelled: such values compare as NaN does, with every
comparison false. No claim exercises those values. -/
def jsNum? : JSVal → Option Rat
  | .prim (.num q) => some q
  | .prim (.bool b) => some (if b then 1 else 0)
  | _ => none

/-- The mood condition of index.js: a truthy mood outside one to ten. -/
def idxMoodBad (v : JSVal) : Bool :=
  v.truthy &&
    (match jsNum? v with
     | some q => q < 1 || q > 10
     | none => false)

/-- validateLifeOSEvent of index.js: accumulate the five required-field
messages, the taxonomy check on a truthy type (calling split on a truthy
non-string type is an uncaught TypeError, modelled as the error result), the
parse check on the uri, and the mood bounds check guarded by truthiness of
mood - so a mood of zero is skipped. Returns isValid together with the
error list. -/
def validateLifeOSEvent (e : IdxEvent) : Except VErr ValidationResult :=
  let req : List IdxErr :=
    (if !e.title.truthy then [.titleRequired] else []) ++
    (if !e.type.truthy then [.typeRequired] else []) ++
    (if !e.source.truthy then [.sourceRequired] else []) ++
    (if !e.timestamp.truthy then [.timestampRequired] else []) ++
    (if !e.uri.truthy then [.uriRequired] else [])
  match e.type with
  | .prim (.str ty) =>
    let typeErrs : List IdxErr :=
      if e.type.truthy && !isValidEventType ty then [.invalidEventType e.type] else []
    let uriErrs : List IdxErr :=
      match parseURIVal e.uri with
      | .error err => [.invalidURIFormat err]
      | .ok _ => []
    let moodErrs : List IdxErr := if idxMoodBad e.mood then [.moodOutOfRange] else []
    let errors := req ++ typeErrs ++ uriErrs ++ moodErrs
    .ok ⟨errors.isEmpty, errors⟩
  | .prim p =>
    if e.type.truthy then .error (.typeErrorNotAString p)
    else
      let uriErrs : List IdxErr :=
        match parseURIVal e.uri with
        | .error err => [.invalidURIFormat err]
        | .ok _ => []
      let moodErrs : List IdxErr := if idxMoodBad e.mood then [.moodOutOfRange] else []
      let errors := req ++ uriErrs ++ moodErrs
      .ok ⟨errors.isEmpty, errors⟩
  | .arr _ => .error (.typeErrorNotAString .null)

/-! Helper lemmas about the string primitives. -/

theorem splitOnChar_ne_nil (sep : Char) (s : Str) : splitOnChar sep s ≠ [] := by
  induction s with
  | nil => simp [splitOnChar]
  | cons c rest ih =>
    simp only [splitOnChar]
    split
    · simp
    · split
      · simp
      · simp

theorem splitOnChar_no_sep {sep : Char} {s : Str} (h : ∀ c ∈ s, c ≠ sep) :
    splitOnChar sep s = [s] := by
  induction s with
  | nil => rfl
  | cons c rest ih =>
    have hc : c ≠ sep := h c (by simp)
    have hr : splitOnChar sep rest = [rest] := ih fun x hx => h x (by simp [hx])
    simp [splitOnChar, hc, hr]

theorem splitOnChar_append {sep : Char} {a b : Str} (h : ∀ c ∈ a, c ≠ sep) :
    splitOnChar sep (a ++ sep :: b) = a :: splitOnChar sep b := by
  induction a with
  | nil => simp [splitOnChar]
  | cons c rest ih =>
    have hc : c ≠ sep := h c (by simp)
    have hr := ih fun x hx => h x (by simp [hx])
    simp [splitOnChar, hc, hr]

theorem encode_unreserved {s : Str} (h : ∀ c ∈ s, isUnreservedChar c = true) :
    encodeURIComponent s = s := by
  induction s with
  | nil => rfl
  | cons c rest ih =>
    have hc := h c (by simp)
    have hr := ih fun x hx => h x (by simp [hx])
    simp only [encodeURIComponent] at hr ⊢
    simp [hc, hr]

theorem percentTokens_cons_no_pct {c : Char} {rest : Str} (hc : c ≠ '%') :
    percentTokens (c :: rest) = (percentTokens rest).map (PTok.chr c :: ·) := by
  rcases rest with _ | ⟨h1, _ | ⟨h2, rest2⟩⟩
  · rw [percentTokens.eq_3 c [] (by intro a b r hr; cases hr), if_neg hc]
  · rw [percentTokens.eq_3 c [h1] (by intro a b r hr; cases hr), if_neg hc]
  · rw [percentTokens.eq_2, if_neg hc]

theorem percentTokens_no_pct {s : Str} (h : ∀ c ∈ s, c ≠ '%') :
    percentTokens s = some (s.map PTok.chr) := by
  induction s with
  | nil => rfl
  | cons c rest ih =>
    have hc : c ≠ '%' := h c (by simp)
    have hr := ih fun x hx => h x (by simp [hx])
    rw [percentTokens_cons_no_pct hc, hr]
    rfl

theorem assembleTokens_chr_eq (c : Char) (ts : List PTok) :
    assembleTokens (.chr c :: ts) = (assembleTokens ts).map (c :: ·) := rfl

theorem assembleTokens_chrs (s : Str) : assembleTokens (s.map PTok.chr) = some s := by
  induction s with
  | nil => rfl
  | cons c rest ih =>
    rw [List.map_cons, assembleTokens_chr_eq, ih]
    rfl

theorem decode_no_pct {s : Str} (h : ∀ c ∈ s, c ≠ '%') :
    decodeURIComponent s = some s := by
  simp [decodeURIComponent, percentTokens_no_pct h, assembleTokens_chrs]

theorem asmAux_pending_ne_nil {ts : List PTok} :
    ∀ {k acc lo hi : Nat} {out : Str}, asmAux (k + 1) acc lo hi ts = some out → out ≠ [] := by
  induction ts with
  | nil =>
    intro k acc lo hi out h
    simp [asmAux] at h
  | cons t rest ih =>
    intro k acc lo hi out h
    cases t with
    | chr c => simp [asmAux] at h
    | byt b =>
      cases k with
      | zero =>
        simp only [asmAux] at h
        split at h
        · obtain ⟨w, _, hw⟩ := Option.map_eq_some'.mp h
          exact hw ▸ (by simp)
        · cases h
      | succ k' =>
        simp only [asmAux] at h
        split at h
        · exact ih h
        · cases h

theorem assembleTokens_cons_ne_nil {t : PTok} {ts : List PTok} {out : Str}
    (h : assembleTokens (t :: ts) = some out) : out ≠ [] := by
  have key : ∀ (x : Option Str) (ch : Char), x.map (ch :: ·) = some out → out ≠ [] := by
    intro x ch hx
    obtain ⟨w, _, hw⟩ := Option.map_eq_some'.mp hx
    exact hw ▸ (by simp)
  cases t with
  | chr c =>
    rw [assembleTokens_chr_eq] at h
    exact key _ _ h
  | byt b =>
    simp only [assembleTokens, asmAux] at h
    repeat' split at h
    all_goals first
      | exact key _ _ h
      | exact asmAux_pending_ne_nil h
      | cases h

theorem percentTokens_cons_ne_nil {c : Char} {rest : Str} {ts : List PTok}
    (h : percentTokens (c :: rest) = some ts) : ts ≠ [] := by
  by_cases hc : c = '%'
  · subst hc
    rcases rest with _ | ⟨h1, _ | ⟨h2, rest2⟩⟩
    · rw [percentTokens.eq_3 _ [] (by intro a b r hr; cases hr)] at h
      simp at h
    · rw [percentTokens.eq_3 _ [h1] (by intro a b r hr; cases hr)] at h
      simp at h
    · rw [percentTokens.eq_2, if_pos rfl] at h
      repeat' split at h
      all_goals first
        | (simp only [Option.some.injEq] at h; exact h ▸ (by simp))
        | cases h
  · rw [percentTokens_cons_no_pct hc] at h
    obtain ⟨w, _, hw⟩ := Option.map_eq_some'.mp h
    exact hw ▸ (by simp)

theorem decode_ne_nil {s out : Str} (hs : s ≠ []) (h : decodeURIComponent s = some out) :
    out ≠ [] := by
  cases s with
  | nil => exact absurd rfl hs
  | cons c rest =>
    simp only [decodeURIComponent, Option.bind_eq_some] at h
    obtain ⟨ts, hts, hout⟩ := h
    cases ts with
    | nil => exact absurd rfl (percentTokens_cons_ne_nil hts)
    | cons t ts' => exact assembleTokens_cons_ne_nil hout

theorem dateMatches_exists {d : Str} (h : dateMatches d = true) :
    ∃ y1 y2 y3 y4 m1 m2 a1 a2,
      d = [y1, y2, y3, y4, '-', m1, m2, '-', a1, a2] ∧
      y1.isDigit = true ∧ y2.isDigit = true ∧ y3.isDigit = true ∧ y4.isDigit = true ∧
      m1.isDigit = true ∧ m2.isDigit = true ∧ a1.isDigit = true ∧ a2.isDigit = true := by
  rcases d with _ | ⟨y1, _ | ⟨y2, _ | ⟨y3, _ | ⟨y4, _ | ⟨d1, _ | ⟨m1, _ | ⟨m2, _ |
    ⟨d2, _ | ⟨a1, _ | ⟨a2, _ | ⟨x, rest⟩⟩⟩⟩⟩⟩⟩⟩⟩⟩⟩
  all_goals rw [dateMatches.eq_def] at h
  all_goals simp at h
  obtain ⟨⟨⟨⟨⟨⟨⟨⟨⟨h1, h2⟩, h3⟩, h4⟩, h5⟩, h6⟩, h7⟩, h8⟩, h9⟩, h10⟩ := h
  exact ⟨y1, y2, y3, y4, m1, m2, a1, a2, by rw [h5, h8], h1, h2, h3, h4, h6, h7, h9, h10⟩

theorem dateMatches_no_slash {d : Str} (h : dateMatches d = true) : '/' ∉ d := by
  obtain ⟨y1, y2, y3, y4, m1, m2, a1, a2, rfl, h1, h2, h3, h4, h6, h7, h9, h10⟩ :=
    dateMatches_exists h
  intro hm
  simp only [List.mem_cons, List.not_mem_nil, or_false] at hm
  rcases hm with rfl | rfl | rfl | rfl | hm | rfl | rfl | hm | rfl | rfl
  · exact absurd h1 (by decide)
  · exact absurd h2 (by decide)
  · exact absurd h3 (by decide)
  · exact absurd h4 (by decide)
  · exact absurd hm (by decide)
  · exact absurd h6 (by decide)
  · exact absurd h7 (by decide)
  · exact absurd hm (by decide)
  · exact absurd h9 (by decide)
  · exact absurd h10 (by decide)

theorem dateMatches_ne_nil {d : Str} (h : dateMatches d = true) : d ≠ [] := by
  intro h0
  rw [h0] at h
  simp [dateMatches] at h

theorem scheme_prefix_append (r : Str) : lifeScheme.isPrefixOf (lifeScheme ++ r) = true := by
  simp [List.isPrefixOf_iff_prefix]

theorem drop_six_scheme (r : Str) : (lifeScheme ++ r).drop 6 = '/' :: r := rfl

theorem isEmpty_false_of_ne_nil {l : Str} (h : l ≠ []) : l.isEmpty = false := by
  cases l with
  | nil => exact absurd rfl h
  | cons c rest => rfl

theorem joinSlash_cons_ne_nil (s1 : Str) (srest : List Str) (h : s1 ≠ []) :
    joinSlash (s1 :: srest) ≠ [] := by
  cases srest with
  | nil => exact h
  | cons s2 rest =>
    show s1 ++ '/' :: joinSlash (s2 :: rest) ≠ []
    simp

/-! Helper lemmas about the validator. -/

theorem validate_ok_iff (e : JSEvent) :
    validateLifeEvent e = .ok () ↔
      checkRequired e = .ok () ∧ checkFormats e = .ok () ∧
      checkLinked e.linked_uris = .ok () ∧ checkMood e.mood = .ok () ∧
      checkDuration e.duration = .ok () := by
  constructor
  · intro h
    unfold validateLifeEvent at h
    repeat' split at h
    all_goals simp_all
  · rintro ⟨h1, h2, h3, h4, h5⟩
    unfold validateLifeEvent
    rw [h1, h2, h3, h4, h5]

theorem validate_err_required {e : JSEvent} {err : VErr}
    (h : checkRequired e = .error err) : validateLifeEvent e = .error err := by
  unfold validateLifeEvent
  rw [h]

theorem validate_err_formats {e : JSEvent} {err : VErr}
    (h1 : checkRequired e = .ok ()) (h2 : checkFormats e = .error err) :
    validateLifeEvent e = .error err := by
  unfold validateLifeEvent
  rw [h1, h2]

theorem validate_eq_tail (e : JSEvent)
    (h1 : checkRequired e = .ok ()) (h2 : checkFormats e = .ok ()) :
    validateLifeEvent e =
      (match checkLinked e.linked_uris with
       | .error err => .error err
       | .ok _ =>
         match checkMood e.mood with
         | .error err => .error err
         | .ok _ => checkDuration e.duration) := by
  unfold validateLifeEvent
  rw [h1, h2]

theorem checkLinkedList_ok {xs : List JSPrim}
    (h : ∀ x ∈ xs, ∃ s, x = JSPrim.str s ∧ lifeScheme.isPrefixOf s = true) :
    checkLinkedList xs = .ok () := by
  induction xs with
  | nil => rfl
  | cons x rest ih =>
    obtain ⟨s, rfl, hpre⟩ := h x (by simp)
    rw [checkLinkedList, if_pos hpre]
    exact ih fun y hy => h y (by simp [hy])

theorem checkLinkedList_err {xs : List JSPrim}
    (hstr : ∀ x ∈ xs, ∃ s, x = JSPrim.str s)
    (hbad : ∃ x ∈ xs, ∀ s, x = JSPrim.str s → lifeScheme.isPrefixOf s = false) :
    ∃ s, checkLinkedList xs = .error (.formatLinkedUri s) ∧
      lifeScheme.isPrefixOf s = false := by
  induction xs with
  | nil => simp at hbad
  | cons x rest ih =>
    obtain ⟨s, rfl⟩ := hstr x (by simp)
    by_cases hpre : lifeScheme.isPrefixOf s = true
    · have hrest : ∃ y ∈ rest, ∀ s2, y = JSPrim.str s2 → lifeScheme.isPrefixOf s2 = false := by
        obtain ⟨y, hy, hyb⟩ := hbad
        rcases List.mem_cons.mp hy with rfl | hy2
        · exact absurd hpre (by simp [hyb s rfl])
        · exact ⟨y, hy2, hyb⟩
      obtain ⟨s2, hres, hs2⟩ := ih (fun y hy => hstr y (by simp [hy])) hrest
      exact ⟨s2, by rw [checkLinkedList, if_pos hpre]; exact hres, hs2⟩
    · refine ⟨s, ?_, Bool.eq_false_iff.mpr hpre⟩
      rw [checkLinkedList, if_neg hpre]

/-! Claim theorems. -/

/-- C7: parseURI on life://2025-07-09//spotify///music.play/x succeeds and
returns the same date, source, type and slug components as parseURI on
life://2025-07-09/spotify/music.play/x - the empty segments produced by the
doubled slashes are discarded before positional assignment. -/
theorem c7_segment_tolerance :
    parseURI "life://2025-07-09//spotify///music.play/x".data =
      .ok ⟨"2025-07-09".data, "spotify".data, "music.play".data, "x".data,
        "life://2025-07-09//spotify///music.play/x".data⟩ ∧
    parseURI "life://2025-07-09/spotify/music.play/x".data =
      .ok ⟨"2025-07-09".data, "spotify".data, "music.play".data, "x".data,
        "life://2025-07-09/spotify/music.play/x".data⟩ := by
  decide

/-- C8: the date check of parseURI is purely syntactic, so the
calendar-invalid date 2025-13-40 is accepted, while 25-7-9 fails the
four-two-two digit pattern with a FormatError. -/
theorem c8_date_strictness :
    parseURI "life://2025-13-40/spotify/music.play/x".data =
      .ok ⟨"2025-13-40".data, "spotify".data, "music.play".data, "x".data,
        "life://2025-13-40/spotify/music.play/x".data⟩ ∧
    parseURI "life://25-7-9/spotify/music.play/x".data = .error .formatDate ∧
    VErr.formatDate.isFormatErr = true := by
  decide

/-- C5: when a URI parses but no resolver is registered for its source
component, resolveURI fails with the resolver-not-found error naming that
source. -/
theorem c5_resolver_not_found (reg : Registry) (uri : Str) (p : URIComponents)
    (hp : parseURI uri = .ok p) (hn : getResolver reg p.source = none) :
    resolveURI reg uri = .error (.resolverNotFound p.source) := by
  simp only [resolveURI, hp, hn]

/-- C5 witness: resolving the URI of the specification scenario against an
empty registry fails naming unknownsource. -/
theorem c5_resolver_not_found_witness :
    resolveURI [] "life://2025-07-09/unknownsource/x.y/z".data =
      .error (.resolverNotFound "unknownsource".data) :=
  c5_resolver_not_found [] _
    ⟨"2025-07-09".data, "unknownsource".data, "x.y".data, "z".data,
      "life://2025-07-09/unknownsource/x.y/z".data⟩ (by decide) rfl

/-- C4: when a URI parses, its source has a registered callback, and the
callback returns an event that fails validation, resolveURI fails with a
resolution error carrying the original URI and the validation failure as its
cause. -/
theorem c4_resolution_wraps (reg : Registry) (uri : Str) (p : URIComponents)
    (f : ResolverFn) (ev : JSEvent) (err : VErr)
    (hp : parseURI uri = .ok p) (hf : getResolver reg p.source = some f)
    (hev : f p = .ok ev) (hval : validateLifeEvent ev = .error err) :
    resolveURI reg uri = .error (.resolutionError uri err) := by
  simp only [resolveURI, hp, hf, hev, hval]

/-- C4 witness: a registered callback returning an event with no timestamp
makes resolveURI fail with a resolution error wrapping the missing-field
error for timestamp. -/
theorem c4_resolution_wraps_witness :
    resolveURI
        [("spotify".data, fun _ =>
          .ok ⟨.prim .undefined, .prim (.str "spotify".data),
            .prim (.str "music.play".data), .prim (.str "Pink".data),
            .prim .undefined, .prim .undefined, .prim .undefined⟩)]
        "life://2025-07-09/spotify/music.play/x".data =
      .error (.resolutionError "life://2025-07-09/spotify/music.play/x".data
        (.missingField "timestamp")) :=
  c4_resolution_wraps _ _
    ⟨"2025-07-09".data, "spotify".data, "music.play".data, "x".data,
      "life://2025-07-09/spotify/music.play/x".data⟩
    _ _ _ (by decide) rfl rfl (by decide)

/-- C6: for an event passing every other validation rule, a mood of one or
ten passes; any other present mood value - zero, eleven, any non-integer, or
a value that is not a number at all - fails with the mood range error. -/
theorem c6_mood_boundary (e : JSEvent)
    (h : validateLifeEvent {e with mood := .prim .undefined} = .ok ()) :
    (∀ v : JSVal, moodOk v = true →
      validateLifeEvent {e with mood := v} = .ok ()) ∧
    (∀ v : JSVal, v ≠ .prim .undefined → moodOk v = false →
      validateLifeEvent {e with mood := v} = .error (.rangeMood v)) ∧
    validateLifeEvent {e with mood := .prim (.num 1)} = .ok () ∧
    validateLifeEvent {e with mood := .prim (.num 10)} = .ok () ∧
    validateLifeEvent {e with mood := .prim (.num 0)} =
      .error (.rangeMood (.prim (.num 0))) ∧
    validateLifeEvent {e with mood := .prim (.num 11)} =
      .error (.rangeMood (.prim (.num 11))) := by
  obtain ⟨tsf, srcf, tyf, tif, luf, mof, duf⟩ := e
  obtain ⟨h1, h2, h3, h4, h5⟩ := (validate_ok_iff _).mp h
  have h1v : ∀ v : JSVal, checkRequired ⟨tsf, srcf, tyf, tif, luf, v, duf⟩ = .ok () :=
    fun v => h1
  have h2v : ∀ v : JSVal, checkFormats ⟨tsf, srcf, tyf, tif, luf, v, duf⟩ = .ok () :=
    fun v => h2
  have h3l : checkLinked luf = .ok () := h3
  have h5d : checkDuration duf = .ok () := h5
  have hok : ∀ v : JSVal, moodOk v = true →
      validateLifeEvent ⟨tsf, srcf, tyf, tif, luf, v, duf⟩ = .ok () := by
    intro v hv
    apply (validate_ok_iff _).mpr
    refine ⟨h1v v, h2v v, h3l, ?_, h5d⟩
    show checkMood v = .ok ()
    by_cases hv0 : v = .prim .undefined
    · simp [checkMood, hv0]
    · simp [checkMood, hv0, hv]
  have herr : ∀ v : JSVal, v ≠ .prim .undefined → moodOk v = false →
      validateLifeEvent ⟨tsf, srcf, tyf, tif, luf, v, duf⟩ =
        .error (.rangeMood v) := by
    intro v hne hv
    have hm : checkMood v = .error (.rangeMood v) := by
      simp [checkMood, hne, hv]
    simp only [validateLifeEvent, h1v v, h2v v]
    simp only [h3l]
    simp only [hm]
  exact ⟨hok, herr, hok _ (by decide), hok _ (by decide),
    herr _ (by decide) (by decide), herr _ (by decide) (by decide)⟩

/-- C6 witness: a concrete valid event exercising the mood boundary at one,
ten, zero and eleven. -/
theorem c6_mood_boundary_witness :
    (validateLifeEvent ⟨.prim (.str "2025-07-09T09:00:00Z".data),
      .prim (.str "spotify".data), .prim (.str "music.play".data),
      .prim (.str "Pink".data), .prim .undefined, .prim (.num 1),
      .prim .undefined⟩ = .ok ()) ∧
    (validateLifeEvent ⟨.prim (.str "2025-07-09T09:00:00Z".data),
      .prim (.str "spotify".data), .prim (.str "music.play".data),
      .prim (.str "Pink".data), .prim .undefined, .prim (.num 10),
      .prim .undefined⟩ = .ok ()) ∧
    (validateLifeEvent ⟨.prim (.str "2025-07-09T09:00:00Z".data),
      .prim (.str "spotify".data), .prim (.str "music.play".data),
      .prim (.str "Pink".data), .prim .undefined, .prim (.num 0),
      .prim .undefined⟩ = .error (.rangeMood (.prim (.num 0)))) ∧
    (validateLifeEvent ⟨.prim (.str "2025-07-09T09:00:00Z".data),
      .prim (.str "spotify".data), .prim (.str "music.play".data),
      .prim (.str "Pink".data), .prim .undefined, .prim (.num 11),
      .prim .undefined⟩ = .error (.rangeMood (.prim (.num 11)))) := by
  obtain ⟨-, -, ha, hb, hc, hd⟩ :=
    c6_mood_boundary ⟨.prim (.str "2025-07-09T09:00:00Z".data),
      .prim (.str "spotify".data), .prim (.str "music.play".data),
      .prim (.str "Pink".data), .prim .undefined, .prim .undefined,
      .prim .undefined⟩ (by decide)
  exact ⟨ha, hb, hc, hd⟩

/-- C2 counterexample: an event that passes every other rule and whose
linked_uris field is present but is the number five - not a sequence -
passes validateLifeEvent, because the source guards the rule with
Array.isArray and silently skips non-arrays; the claim expects a
FormatError here. -/
theorem c2_linked_uris_cex :
    validateLifeEvent ⟨.prim (.str "2025-07-09T09:00:00Z".data),
      .prim (.str "spotify".data), .prim (.str "music.play".data),
      .prim (.str "Pink".data), .prim (.num 5), .prim .undefined,
      .prim .undefined⟩ = .ok () := by
  decide

/-- C2 (amended): for an event passing every other rule, a linked_uris value
that is not an array is skipped without error; an array all of whose string
elements carry the scheme passes; an array of strings containing one without
the scheme fails with the format error for that linked URI (a non-string
element would instead raise a TypeError from startsWith). -/
theorem c2_linked_uris_amended (e : JSEvent)
    (h : validateLifeEvent {e with linked_uris := .prim .undefined} = .ok ()) :
    (∀ p : JSPrim, validateLifeEvent {e with linked_uris := .prim p} = .ok ()) ∧
    (∀ xs : List JSPrim,
      (∀ x ∈ xs, ∃ s, x = JSPrim.str s ∧ lifeScheme.isPrefixOf s = true) →
      validateLifeEvent {e with linked_uris := .arr xs} = .ok ()) ∧
    (∀ xs : List JSPrim, (∀ x ∈ xs, ∃ s, x = JSPrim.str s) →
      (∃ x ∈ xs, ∀ s, x = JSPrim.str s → lifeScheme.isPrefixOf s = false) →
      ∃ s, validateLifeEvent {e with linked_uris := .arr xs} =
          .error (.formatLinkedUri s) ∧
        lifeScheme.isPrefixOf s = false ∧ (VErr.formatLinkedUri s).isFormatErr = true) := by
  obtain ⟨tsf, srcf, tyf, tif, luf, mof, duf⟩ := e
  obtain ⟨h1, h2, h3, h4, h5⟩ := (validate_ok_iff _).mp h
  have h1v : ∀ v : JSVal, checkRequired ⟨tsf, srcf, tyf, tif, v, mof, duf⟩ = .ok () :=
    fun v => h1
  have h2v : ∀ v : JSVal, checkFormats ⟨tsf, srcf, tyf, tif, v, mof, duf⟩ = .ok () :=
    fun v => h2
  have h4m : checkMood mof = .ok () := h4
  have h5d : checkDuration duf = .ok () := h5
  refine ⟨?_, ?_, ?_⟩
  · intro p
    exact (validate_ok_iff _).mpr ⟨h1v _, h2v _, rfl, h4m, h5d⟩
  · intro xs hxs
    exact (validate_ok_iff _).mpr ⟨h1v _, h2v _, checkLinkedList_ok hxs, h4m, h5d⟩
  · intro xs hstr hbad
    obtain ⟨s, hres, hs⟩ := checkLinkedList_err hstr hbad
    refine ⟨s, ?_, hs, rfl⟩
    have hl : checkLinked (.arr xs) = .error (.formatLinkedUri s) := hres
    simp only [validateLifeEvent, h1v (.arr xs), h2v (.arr xs)]
    simp only [hl]

/-- C2 witness: a valid event whose linked_uris is an array holding one
well-prefixed string and one string without the scheme fails with the format
error on the bad element, while the all-good array passes. -/
theorem c2_linked_uris_amended_witness :
    (validateLifeEvent ⟨.prim (.str "2025-07-09T09:00:00Z".data),
      .prim (.str "spotify".data), .prim (.str "music.play".data),
      .prim (.str "Pink".data),
      .arr [.str "life://2025-07-09/journal/entry/x".data], .prim .undefined,
      .prim .undefined⟩ = .ok ()) ∧
    (∃ s, validateLifeEvent ⟨.prim (.str "2025-07-09T09:00:00Z".data),
      .prim (.str "spotify".data), .prim (.str "music.play".data),
      .prim (.str "Pink".data),
      .arr [.str "life://2025-07-09/journal/entry/x".data, .str "https://e".data],
      .prim .undefined, .prim .undefined⟩ = .error (.formatLinkedUri s) ∧
      lifeScheme.isPrefixOf s = false ∧ (VErr.formatLinkedUri s).isFormatErr = true) := by
  obtain ⟨hskip, hok, herr⟩ :=
    c2_linked_uris_amended ⟨.prim (.str "2025-07-09T09:00:00Z".data),
      .prim (.str "spotify".data), .prim (.str "music.play".data),
      .prim (.str "Pink".data), .prim .undefined, .prim .undefined,
      .prim .undefined⟩ (by decide)
  refine ⟨hok _ ?_, herr _ ?_ ?_⟩
  · intro x hx
    simp only [List.mem_singleton] at hx
    exact ⟨_, hx, by decide⟩
  · intro x hx
    simp only [List.mem_cons, List.not_mem_nil, or_false] at hx
    rcases hx with rfl | rfl
    · exact ⟨_, rfl⟩
    · exact ⟨_, rfl⟩
  · refine ⟨.str "https://e".data, by simp, ?_⟩
    intro s hs
    cases hs
    decide

/-- C3 counterexample: an event whose timestamp, source and type are valid
and whose title is present but equal to the empty string fails with the
missing-field error naming title - not with a FormatError as the claim
states - because the required-field loop tests JavaScript falsiness and the
empty string is falsy. -/
theorem c3_title_cex :
    validateLifeEvent ⟨.prim (.str "2025-07-09T09:00:00Z".data),
      .prim (.str "spotify".data), .prim (.str "music.play".data),
      .prim (.str "".data), .prim .undefined, .prim .undefined,
      .prim .undefined⟩ = .error (.missingField "title") ∧
    (VErr.missingField "title").isFormatErr = false := by
  decide

/-- C3 (amended): with timestamp, source and type present and valid, a title
that is absent or falsy - in particular the empty string - fails with the
missing-field error naming title, while a truthy title that is not a string
fails with the format error for title. -/
theorem c3_title_amended (e : JSEvent)
    (ht1 : e.timestamp.truthy = true) (ht2 : timestampTest e.timestamp = true)
    (hs1 : e.source.truthy = true) (hs2 : isNonEmptyStr e.source = true)
    (hy1 : e.type.truthy = true) (hy2 : typeTest e.type = true) :
    (∀ v : JSVal, v.truthy = false →
      validateLifeEvent {e with title := v} = .error (.missingField "title")) ∧
    (∀ v : JSVal, v.truthy = true → isNonEmptyStr v = false →
      validateLifeEvent {e with title := v} = .error (.formatTitle v)) := by
  obtain ⟨tsf, srcf, tyf, tif, luf, mof, duf⟩ := e
  constructor
  · intro v hv
    apply validate_err_required
    simp only [checkRequired] at ht1 hs1 hy1 ⊢
    simp [ht1, hs1, hy1, hv]
  · intro v hv hnes
    apply validate_err_formats
    · simp only [checkRequired]
      simp [ht1, hs1, hy1, hv]
    · simp only [checkFormats]
      simp [ht2, hy2, hs2, hnes]

/-- C3 witness: with valid timestamp, source and type, a numeric title five
is truthy but not a string and fails with the title format error, while an
absent title fails with the missing-field error. -/
theorem c3_title_amended_witness :
    (validateLifeEvent ⟨.prim (.str "2025-07-09T09:00:00Z".data),
      .prim (.str "spotify".data), .prim (.str "music.play".data),
      .prim .undefined, .prim .undefined, .prim .undefined,
      .prim .undefined⟩ = .error (.missingField "title")) ∧
    (validateLifeEvent ⟨.prim (.str "2025-07-09T09:00:00Z".data),
      .prim (.str "spotify".data), .prim (.str "music.play".data),
      .prim (.num 5), .prim .undefined, .prim .undefined,
      .prim .undefined⟩ = .error (.formatTitle (.prim (.num 5)))) := by
  obtain ⟨hmiss, hfmt⟩ :=
    c3_title_amended ⟨.prim (.str "2025-07-09T09:00:00Z".data),
      .prim (.str "spotify".data), .prim (.str "music.play".data),
      .prim .undefined, .prim .undefined, .prim .undefined,
      .prim .undefined⟩ (by decide) (by decide) (by decide) (by decide)
      (by decide) (by decide)
  exact ⟨hmiss _ (by decide), hfmt _ (by decide) (by decide)⟩

/-- C9: whenever parseURI succeeds, the returned date, source, type and slug
are non-empty, the date matches the four-two-two digit pattern, and the full
field is the original input unchanged. -/
theorem c9_parse_invariants (uri : Str) (p : URIComponents)
    (h : parseURI uri = .ok p) :
    p.date ≠ [] ∧ p.source ≠ [] ∧ p.type ≠ [] ∧ p.slug ≠ [] ∧
    dateMatches p.date = true ∧ p.full = uri := by
  unfold parseURI at h
  split at h
  case isFalse => cases h
  case isTrue hpre =>
  split at h
  case h_2 => cases h
  case h_1 date src ty s1 srest heq =>
  split at h
  case h_1 => cases h
  case h_2 slug heqd =>
  split at h
  case isFalse => cases h
  case isTrue hdm =>
  have hmem : ∀ x ∈ date :: src :: ty :: s1 :: srest, ¬x.isEmpty = true := by
    intro x hx
    have : x ∈ ((splitOnChar '/' (uri.drop 6)).filter fun p => !p.isEmpty) := by
      rw [heq]; exact hx
    have := List.of_mem_filter this
    simpa using this
  have hdate : date ≠ [] := by
    have := hmem date (by simp)
    simpa [List.isEmpty_iff] using this
  have hsrc : src ≠ [] := by
    have := hmem src (by simp)
    simpa [List.isEmpty_iff] using this
  have hty : ty ≠ [] := by
    have := hmem ty (by simp)
    simpa [List.isEmpty_iff] using this
  have hs1 : s1 ≠ [] := by
    have := hmem s1 (by simp)
    simpa [List.isEmpty_iff] using this
  have hslug : slug ≠ [] :=
    decode_ne_nil (joinSlash_cons_ne_nil s1 srest hs1) heqd
  cases h
  exact ⟨hdate, hsrc, hty, hslug, hdm, rfl⟩

/-- C9 witness: the invariants hold for the parsed components of a concrete
URI. -/
theorem c9_parse_invariants_witness :
    ("2025-07-09".data : Str) ≠ [] ∧ ("spotify".data : Str) ≠ [] ∧
    ("music.play".data : Str) ≠ [] ∧ ("pink white".data : Str) ≠ [] ∧
    dateMatches "2025-07-09".data = true ∧
    ("life://2025-07-09/spotify/music.play/pink%20white".data : Str) =
      "life://2025-07-09/spotify/music.play/pink%20white".data := by
  have := c9_parse_invariants "life://2025-07-09/spotify/music.play/pink%20white".data
    ⟨"2025-07-09".data, "spotify".data, "music.play".data, "pink white".data,
      "life://2025-07-09/spotify/music.play/pink%20white".data⟩ (by decide)
  exact this

/-- C1 counterexample: the components record with source a/b - a non-empty
string, with a date matching the pattern and a slug of unreserved
characters - generates a URI that parses back with source a, type b and
slug t/x, not the original components: generateURI inserts source and type
verbatim, so a slash inside them shifts every later segment. -/
theorem c1_roundtrip_cex :
    generateURI ⟨"2025-07-09".data, "a/b".data, "t".data, "x".data, []⟩ =
      .ok "life://2025-07-09/a/b/t/x".data ∧
    parseURI "life://2025-07-09/a/b/t/x".data =
      .ok ⟨"2025-07-09".data, "a".data, "b".data, "t/x".data,
        "life://2025-07-09/a/b/t/x".data⟩ ∧
    ("a".data : Str) ≠ "a/b".data := by
  decide

/-- C1 (amended): for components whose date matches the pattern, whose
source, type and slug are non-empty, whose source and type contain no slash,
and whose slug consists of unreserved characters only, parseURI of
generateURI returns components with the same date, source, type and slug. -/
theorem c1_roundtrip_amended (c : URIComponents)
    (hd : dateMatches c.date = true) (hs : c.source ≠ []) (ht : c.type ≠ [])
    (hsl : c.slug ≠ []) (hs2 : '/' ∉ c.source) (ht2 : '/' ∉ c.type)
    (hslug : ∀ ch ∈ c.slug, isUnreservedChar ch = true) :
    ∃ u p, generateURI c = .ok u ∧ parseURI u = .ok p ∧
      p.date = c.date ∧ p.source = c.source ∧ p.type = c.type ∧
      p.slug = c.slug := by
  have hdnil : c.date ≠ [] := dateMatches_ne_nil hd
  have hds : ∀ ch ∈ c.date, ch ≠ '/' := by
    intro ch hm heq
    exact dateMatches_no_slash hd (heq ▸ hm)
  have hss : ∀ ch ∈ c.source, ch ≠ '/' := fun ch hm heq => hs2 (heq ▸ hm)
  have hts : ∀ ch ∈ c.type, ch ≠ '/' := fun ch hm heq => ht2 (heq ▸ hm)
  have hsls : ∀ ch ∈ c.slug, ch ≠ '/' := by
    intro ch hm heq
    have := hslug ch hm
    rw [heq] at this
    exact absurd this (by decide)
  have hslp : ∀ ch ∈ c.slug, ch ≠ '%' := by
    intro ch hm heq
    have := hslug ch hm
    rw [heq] at this
    exact absurd this (by decide)
  have henc : encodeURIComponent c.slug = c.slug := encode_unreserved hslug
  have hgen : generateURI c =
      .ok (lifeScheme ++ (c.date ++ '/' :: (c.source ++ '/' :: (c.type ++ '/' :: c.slug)))) := by
    unfold generateURI
    rw [isEmpty_false_of_ne_nil hdnil, isEmpty_false_of_ne_nil hs,
      isEmpty_false_of_ne_nil ht, isEmpty_false_of_ne_nil hsl, hd, henc]
    simp
  have hsplit : splitOnChar '/'
      ('/' :: (c.date ++ '/' :: (c.source ++ '/' :: (c.type ++ '/' :: c.slug)))) =
      [] :: c.date :: c.source :: c.type :: [c.slug] := by
    have e0 : splitOnChar '/'
        ('/' :: (c.date ++ '/' :: (c.source ++ '/' :: (c.type ++ '/' :: c.slug)))) =
        [] :: splitOnChar '/' (c.date ++ '/' :: (c.source ++ '/' :: (c.type ++ '/' :: c.slug))) := by
      simp [splitOnChar]
    rw [e0, splitOnChar_append hds, splitOnChar_append hss, splitOnChar_append hts,
      splitOnChar_no_sep hsls]
  have hfilter : (([] : Str) :: c.date :: c.source :: c.type :: [c.slug]).filter
      (fun p => !p.isEmpty) = c.date :: c.source :: c.type :: [c.slug] := by
    simp [List.filter, isEmpty_false_of_ne_nil hdnil, isEmpty_false_of_ne_nil hs,
      isEmpty_false_of_ne_nil ht, isEmpty_false_of_ne_nil hsl]
  have hparse : parseURI
      (lifeScheme ++ (c.date ++ '/' :: (c.source ++ '/' :: (c.type ++ '/' :: c.slug)))) =
      .ok ⟨c.date, c.source, c.type, c.slug,
        lifeScheme ++ (c.date ++ '/' :: (c.source ++ '/' :: (c.type ++ '/' :: c.slug)))⟩ := by
    unfold parseURI
    rw [drop_six_scheme, hsplit]
    simp only [scheme_prefix_append, hfilter]
    have hjoin : joinSlash [c.slug] = c.slug := rfl
    simp only [hjoin, decode_no_pct hslp, hd]
    simp
  exact ⟨_, _, hgen, hparse, rfl, rfl, rfl, rfl⟩

/-- C1 witness: round-tripping concrete components through generateURI and
parseURI returns the same four fields. -/
theorem c1_roundtrip_amended_witness :
    ∃ u p, generateURI ⟨"2025-07-09".data, "spotify".data, "music.play".data,
        "pinkwhite".data, []⟩ = .ok u ∧
      parseURI u = .ok p ∧
      p.date = "2025-07-09".data ∧ p.source = "spotify".data ∧
      p.type = "music.play".data ∧ p.slug = "pinkwhite".data :=
  c1_roundtrip_amended
    ⟨"2025-07-09".data, "spotify".data, "music.play".data, "pinkwhite".data, []⟩
    (by decide) (by decide) (by decide) (by decide) (by decide) (by decide)
    (by decide)

/-- C10: validateLifeOSEvent of index.js guards its mood range check with
truthiness, so a mood of zero - a falsy number - skips the one-to-ten rule
entirely and a fully valid event with mood zero is reported valid with no
errors, whereas the core validateLifeEvent rejects mood zero with the range
error. -/
theorem c10_mood_zero_skipped (t ty s ts u : Str) (cm : URIComponents)
    (ht : t ≠ []) (hs : s ≠ []) (hts : ts ≠ [])
    (hty : isValidEventType ty = true) (hu : parseURI u = .ok cm) :
    validateLifeOSEvent ⟨.prim (.str t), .prim (.str ty), .prim (.str s),
      .prim (.str ts), .prim (.str u), .prim (.num 0)⟩ = .ok ⟨true, []⟩ ∧
    (∀ ce : JSEvent,
      validateLifeEvent {ce with mood := .prim .undefined} = .ok () →
      validateLifeEvent {ce with mood := .prim (.num 0)} =
        .error (.rangeMood (.prim (.num 0)))) := by
  constructor
  · have htyne : ty ≠ [] := by
      intro h0
      rw [h0] at hty
      exact absurd hty (by decide)
    have hune : u ≠ [] := by
      intro h0
      rw [h0, show parseURI [] = Except.error VErr.formatUri from rfl] at hu
      simp at hu
    have hmood : idxMoodBad (.prim (.num 0)) = false := by decide
    simp only [validateLifeOSEvent, parseURIVal, hu, hmood, JSVal.truthy,
      JSPrim.truthy, isEmpty_false_of_ne_nil ht, isEmpty_false_of_ne_nil hs,
      isEmpty_false_of_ne_nil hts, isEmpty_false_of_ne_nil htyne,
      isEmpty_false_of_ne_nil hune, hty]
    simp
  · intro ce hce
    obtain ⟨tsf, srcf, tyf, tif, luf, mof, duf⟩ := ce
    obtain ⟨h1, h2, h3, h4, h5⟩ := (validate_ok_iff _).mp hce
    have h1m : checkRequired ⟨tsf, srcf, tyf, tif, luf, .prim (.num 0), duf⟩ =
        .ok () := h1
    have h2m : checkFormats ⟨tsf, srcf, tyf, tif, luf, .prim (.num 0), duf⟩ =
        .ok () := h2
    have h3l : checkLinked luf = .ok () := h3
    have hm : checkMood (.prim (.num 0)) =
        .error (.rangeMood (.prim (.num 0))) := by decide
    simp only [validateLifeEvent, h1m, h2m]
    simp only [h3l]
    simp only [hm]

/-- C10 witness: a concrete valid event with mood zero passes the entry
point validator with no errors while the core validator rejects it. -/
theorem c10_mood_zero_skipped_witness :
    validateLifeOSEvent ⟨.prim (.str "Test".data), .prim (.str "music.play".data),
      .prim (.str "spotify".data), .prim (.str "2025-07-09T09:00:00Z".data),
      .prim (.str "life://2025-07-09/spotify/music.play/test".data),
      .prim (.num 0)⟩ = .ok ⟨true, []⟩ ∧
    validateLifeEvent ⟨.prim (.str "2025-07-09T09:00:00Z".data),
      .prim (.str "spotify".data), .prim (.str "music.play".data),
      .prim (.str "Pink".data), .prim .undefined, .prim (.num 0),
      .prim .undefined⟩ = .error (.rangeMood (.prim (.num 0))) := by
  obtain ⟨hA, hB⟩ := c10_mood_zero_skipped "Test".data "music.play".data
    "spotify".data "2025-07-09T09:00:00Z".data
    "life://2025-07-09/spotify/music.play/test".data
    ⟨"2025-07-09".data, "spotify".data, "music.play".data, "test".data,
      "life://2025-07-09/spotify/music.play/test".data⟩
    (by decide) (by decide) (by decide) (by decide) (by decide)
  exact ⟨hA, hB ⟨.prim (.str "2025-07-09T09:00:00Z".data),
    .prim (.str "spotify".data), .prim (.str "music.play".data),
    .prim (.str "Pink".data), .prim .undefined, .prim .undefined,
    .prim .undefined⟩ (by decide)⟩

end LifeOS

